import Mathlib

/-!
Verification of the onboarding state machine, room registry and broadcast
fan-out of `src/server.js` (lan-chat).

The JavaScript server keeps a process-wide `rooms : Map<string, Room>` and,
per socket, a loosely typed `socket.state` object.  We embed this directly:
JavaScript `Map`s become association lists with first-match lookup
(`mapGet`), in-place replace-or-append insertion (`mapSet`) and
first-occurrence deletion (`mapDelete`), mirroring the unique-key `Map`
semantics; `socket.state` becomes an `Option SessionState` whose `step`
field is a raw `String`, exactly as in the source; outbound `socket.emit` /
`io.to(room).emit` calls become an explicit `Effect` list.
-/

namespace LanChat

/-- JavaScript `String.prototype.trim`: strip leading and trailing
whitespace.  (Defined by structural recursion over the character list so
that it evaluates inside the kernel.) -/
def trimStr (s : String) : String :=
  ⟨((s.data.dropWhile Char.isWhitespace).reverse.dropWhile Char.isWhitespace).reverse⟩

/-- First-match lookup in an association list, as `Map.prototype.get`. -/
def mapGet {α : Type} : List (String × α) → String → Option α
  | [], _ => none
  | p :: rest, k => if p.1 = k then some p.2 else mapGet rest k

/-- Replace the entry for `k` in place, or append a fresh one, as
`Map.prototype.set` (keys of a JS `Map` are unique, so replacing the first
occurrence is exact). -/
def mapSet {α : Type} : List (String × α) → String → α → List (String × α)
  | [], k, v => [(k, v)]
  | p :: rest, k, v => if p.1 = k then (k, v) :: rest else p :: mapSet rest k v

/-- Remove the entry for `k`, as `Map.prototype.delete`. -/
def mapDelete {α : Type} : List (String × α) → String → List (String × α)
  | [], _ => []
  | p :: rest, k => if p.1 = k then rest else p :: mapDelete rest k

/-- JavaScript truthiness of a nullable string: `null`/`undefined` and the
empty string are falsy. -/
def strTruthy : Option String → Bool
  | none => false
  | some s => !(s == "")

/-- The per-socket `socket.state` object: a `step` tag (a raw string in the
source) and the optional `roomId` field written by the `connect_room`
branch and by `createRoom`/`joinRoom`. -/
structure SessionState where
  step : String
  roomId : Option String
  deriving DecidableEq

/-- One entry of the `rooms` map: `{ passkey, clients }` where `clients`
maps socket ids to usernames. -/
structure Room where
  passkey : Option String
  clients : List (String × String)
  deriving DecidableEq

/-- The process-wide `rooms` map. -/
abbrev Registry := List (String × Room)

/-- Server-side view of one socket: its `state` object, the (dead) field
`socket.roomId` assigned in the hosting branches and never read anywhere,
and the set of socket.io rooms the socket has `join`ed (the delivery
targets of `io.to(roomId).emit`). -/
structure Conn where
  state : Option SessionState
  socketRoomId : Option String
  joined : List String
  deriving DecidableEq

/-- An outbound transport action: `socket.emit(event, payload)` to one
connection, or `io.to(roomId).emit("message", payload)` to a room. -/
inductive Effect where
  | emit (target event payload : String)
  | broadcast (roomId payload : String)
  deriving DecidableEq

/-- The whole mutable server: the `rooms` registry plus all live sockets. -/
structure ServerState where
  rooms : Registry
  conns : List (String × Conn)
  deriving DecidableEq

/-- `rooms.get(state.roomId)` where `state.roomId` may be absent
(`rooms.get(undefined)` is `undefined`). -/
def olookup (rooms : Registry) : Option String → Option Room
  | none => none
  | some rid => mapGet rooms rid

/- Prompt strings of the source, verbatim. -/

def promptChoice : String := "Enter option (1 for host, 2 for connect): "

def promptHostType : String := "Make room [1] open or [2] private: "

def promptSetPasskey : String := "Set a passkey: "

def promptRoomId : String := "Enter room ID: "

def promptPasskey : String := "Enter passkey: "

def promptUsername : String := "Enter your username: "

/-- The room-creation confirmation emitted by `createRoom`:
`Room created with ID: ${roomId}\nShare this ID with others to join${passkey ? " (passkey required)" : ""}.` -/
def createRoomMessage (roomId : String) (passkey : Option String) : String :=
  "Room created with ID: " ++ roomId ++ "\nShare this ID with others to join" ++
    (if strTruthy passkey then " (passkey required)" else "") ++ "."

/-- `createRoom(socket, passkey)` from server.js: generates a fresh id
(passed in here as `freshId`, standing for `uuidv4()`), inserts
`{ passkey, clients: new Map() }` into the registry, emits the creation
message, and returns the room id.  The source also assigns
`socket.state = { step: "username", roomId }`, but that store is dead: the
caller overwrites `socket.state` with `res.state` (which is `undefined`,
since the returned object is `{ step, roomId }`, not `{ state, roomId }`)
and its trailing `socket.state = state` then restores the caller's local
state object, so the assignment made here is never observable. -/
def createRoom (rooms : Registry) (connId freshId : String) (passkey : Option String) :
    Registry × String × List Effect :=
  (mapSet rooms freshId ⟨passkey, []⟩, freshId,
    [Effect.emit connId "message" (createRoomMessage freshId passkey)])

/-- `joinRoom(socket, roomId, username)` from server.js.  On a missing room
it emits the error and the initial prompt (its `socket.state` reset is dead
for the same reason as in `createRoom`: the caller's final
`socket.state = state` overwrites it).  On success it inserts the client
into the room, `socket.join`s the broadcast group, announces the join to
the room and welcomes the socket privately. -/
def joinRoom (conn : Conn) (rooms : Registry) (connId : String) (roomId : Option String)
    (username : String) : Conn × Registry × List Effect :=
  match roomId, olookup rooms roomId with
  | some rid, some room =>
      ({conn with state := some ⟨"chat", some rid⟩, joined := conn.joined ++ [rid]},
       mapSet rooms rid {room with clients := mapSet room.clients connId username},
       [Effect.broadcast rid ("*** " ++ username ++ " joined the chat ***"),
        Effect.emit connId "message" "Connection successful. Welcome to the chat!"])
  | _, _ =>
      ({conn with state := some ⟨"choice", none⟩}, rooms,
       [Effect.emit connId "error" "Room no longer exists.",
        Effect.emit connId "prompt" promptChoice])

/-- `handleResponse(socket, data)` from server.js, for already-trimmed
`data`.  The source reads `const state = socket.state || { step: "choice" }`,
mutates that local object in place inside the branches, and unconditionally
ends with `socket.state = state`; consequently the final session state is
always the local object with its in-branch mutations, and every
intermediate `socket.state` store (the `undefined` from `res.state` in the
hosting branches, the stores inside `createRoom`/`joinRoom`, and the
`{ step: "choice" }` reset of the invalid-state branch) is dead.  The
returned `Conn` reflects exactly that. -/
def handleResponse (conn : Conn) (rooms : Registry) (connId freshId data : String) :
    Conn × Registry × List Effect :=
  let state0 := conn.state.getD ⟨"choice", none⟩
  if state0.step = "choice" then
    if data = "1" then
      ({conn with state := some {state0 with step := "host_type"}}, rooms,
        [Effect.emit connId "prompt" promptHostType])
    else if data = "2" then
      ({conn with state := some {state0 with step := "connect_room"}}, rooms,
        [Effect.emit connId "prompt" promptRoomId])
    else
      ({conn with state := some state0}, rooms,
        [Effect.emit connId "error" "Invalid option. Choose 1 or 2.",
         Effect.emit connId "prompt" promptChoice])
  else if state0.step = "host_type" then
    if data = "1" then
      -- `const res = createRoom(socket, null); socket.state = res.state;`
      -- (`res.state` is `undefined`); `socket.roomId = res.roomId`; the final
      -- `socket.state = state` leaves the session at the unmutated local
      -- state, still at step "host_type".
      let r := createRoom rooms connId freshId none
      ({conn with state := some state0, socketRoomId := some r.2.1}, r.1,
        r.2.2 ++ [Effect.emit connId "prompt" promptUsername])
    else if data = "2" then
      ({conn with state := some {state0 with step := "host_passkey"}}, rooms,
        [Effect.emit connId "prompt" promptSetPasskey])
    else
      ({conn with state := some state0}, rooms,
        [Effect.emit connId "error" "Invalid option. Choose 1 or 2.",
         Effect.emit connId "prompt" promptHostType])
  else if state0.step = "host_passkey" then
    if data = "" then
      ({conn with state := some state0}, rooms,
        [Effect.emit connId "error" "Passkey cannot be empty.",
         Effect.emit connId "prompt" promptSetPasskey])
    else
      -- Same dead-store pattern as the open-room branch above.
      let r := createRoom rooms connId freshId (some data)
      ({conn with state := some state0, socketRoomId := some r.2.1}, r.1,
        r.2.2 ++ [Effect.emit connId "prompt" promptUsername])
  else if state0.step = "connect_room" then
    match mapGet rooms data with
    | none =>
        ({conn with state := some state0}, rooms,
          [Effect.emit connId "error" "Room does not exist.",
           Effect.emit connId "prompt" promptRoomId])
    | some room =>
        -- `state.roomId = data` mutates the local state object.
        if strTruthy room.passkey then
          ({conn with state := some ⟨"connect_passkey", some data⟩}, rooms,
            [Effect.emit connId "prompt" promptPasskey])
        else
          ({conn with state := some ⟨"username", some data⟩}, rooms,
            [Effect.emit connId "prompt" promptUsername])
  else if state0.step = "connect_passkey" then
    -- `const room = rooms.get(state.roomId); if (!room || data !== room.passkey)`
    match (olookup rooms state0.roomId) with
    | some room =>
        if room.passkey = some data then
          ({conn with state := some {state0 with step := "username"}}, rooms,
            [Effect.emit connId "prompt" promptUsername])
        else
          ({conn with state := some state0}, rooms,
            [Effect.emit connId "error" "Invalid passkey.",
             Effect.emit connId "prompt" promptPasskey])
    | none =>
        ({conn with state := some state0}, rooms,
          [Effect.emit connId "error" "Invalid passkey.",
           Effect.emit connId "prompt" promptPasskey])
  else if state0.step = "username" then
    if data = "" then
      ({conn with state := some state0}, rooms,
        [Effect.emit connId "error" "Username cannot be empty.",
         Effect.emit connId "prompt" promptUsername])
    else
      -- `joinRoom(socket, state.roomId, data); state.step = "chat"; ...`
      -- runs unconditionally, and the final `socket.state = state` commits
      -- the local object, overwriting whatever joinRoom stored (including
      -- its reset to choice when the room no longer exists).
      let j := joinRoom conn rooms connId state0.roomId data
      ({j.1 with state := some {state0 with step := "chat"}}, j.2.1,
        j.2.2 ++ [Effect.emit connId "message" "type and hit enter to send a message"])
  else
    -- Invalid-state branch; its `socket.state = { step: "choice" }` reset is
    -- dead (clobbered by the trailing `socket.state = state`).
    ({conn with state := some state0}, rooms,
      [Effect.emit connId "error" "Invalid state. Please reconnect.",
       Effect.emit connId "prompt" promptChoice])

/-- The `chat_message` handler.  The source guards with
`if (socket.state && socket.state.step === "chat" && data)` and then with
`if (username && roomId)` on the truthiness of both strings; outside the
outer guard nothing at all is emitted. -/
def handleChatMessage (conn : Conn) (rooms : Registry) (connId data : String) : List Effect :=
  match conn.state with
  | none => []
  | some st =>
    if st.step = "chat" ∧ data ≠ "" then
      match st.roomId, (olookup rooms st.roomId).bind (fun room => mapGet room.clients connId) with
      | some rid, some u =>
          if u ≠ "" ∧ rid ≠ "" then
            [Effect.broadcast rid ("[" ++ u ++ "] " ++ data)]
          else
            [Effect.emit connId "error" "Not in a valid room or username not set."]
      | _, _ => [Effect.emit connId "error" "Not in a valid room or username not set."]
    else []

/-- `findRoomForSocket(socketId)`: the first room (registry insertion
order) whose `clients` map contains the socket. -/
def findRoomForSocket (rooms : Registry) (connId : String) : Option String :=
  match rooms with
  | [] => none
  | (rid, room) :: rest =>
      if (mapGet room.clients connId).isSome then some rid
      else findRoomForSocket rest connId

/-- The `quit` handler: remove the socket's membership (if any) and
announce the departure, reset `socket.state` to choice, then
`socket.disconnect(true)` — the transport then delivers a separate
`disconnect` event, modelled as its own `SEvent`.  Note: unlike the
`disconnect` handler, this handler never deletes a room, even when the
departing client was its last member; and it does not `socket.leave` the
broadcast group. -/
def applyQuit (s : ServerState) (c : String) : ServerState × List Effect :=
  let conn := (mapGet s.conns c).getD ⟨none, none, []⟩
  let reset : Conn := {conn with state := some ⟨"choice", none⟩}
  match findRoomForSocket s.rooms c with
  | some rid =>
    match mapGet s.rooms rid with
    | some room =>
      match mapGet room.clients c with
      | some u =>
          if u ≠ "" then
            (⟨mapSet s.rooms rid {room with clients := mapDelete room.clients c},
              mapSet s.conns c reset⟩,
             [Effect.broadcast rid ("*** " ++ u ++ " left the chat ***")])
          else (⟨s.rooms, mapSet s.conns c reset⟩, [])
      | none => (⟨s.rooms, mapSet s.conns c reset⟩, [])
    -- findRoomForSocket only returns keys present in the registry, so this
    -- arm is unreachable.
    | none => (⟨s.rooms, mapSet s.conns c reset⟩, [])
  | none => (⟨s.rooms, mapSet s.conns c reset⟩, [])

/-- The `disconnect` handler: remove the socket's membership (if any),
announce the departure, delete the room if it became empty, and tear the
socket (and with it its session state and socket.io memberships) down. -/
def applyDisconnect (s : ServerState) (c : String) : ServerState × List Effect :=
  match findRoomForSocket s.rooms c with
  | some rid =>
    match mapGet s.rooms rid with
    | some room =>
      match mapGet room.clients c with
      | some u =>
          if u ≠ "" then
            let clients1 := mapDelete room.clients c
            let rooms1 := mapSet s.rooms rid {room with clients := clients1}
            let rooms2 := if clients1.isEmpty then mapDelete rooms1 rid else rooms1
            (⟨rooms2, mapDelete s.conns c⟩,
             [Effect.broadcast rid ("*** " ++ u ++ " left the chat ***")])
          else (⟨s.rooms, mapDelete s.conns c⟩, [])
      | none => (⟨s.rooms, mapDelete s.conns c⟩, [])
    -- Unreachable for the same reason as in `applyQuit`.
    | none => (⟨s.rooms, mapDelete s.conns c⟩, [])
  | none => (⟨s.rooms, mapDelete s.conns c⟩, [])

/-- Inbound transport events.  `response` carries the fresh id that
`uuidv4()` would produce should this event create a room. -/
inductive SEvent where
  | connect (connId : String)
  | response (connId data freshId : String)
  | chat_message (connId data : String)
  | quit (connId : String)
  | disconnect (connId : String)

/-- Dispatch of one inbound event, as wired up in `io.on("connection", ...)`:
the full effect of the handler on the registry and the sockets, plus the
list of outbound actions it performs.  The `response` payload is trimmed
(`data.trim()`, here `trimStr`), the `chat_message` payload is not. -/
def applyServerEvent (s : ServerState) : SEvent → ServerState × List Effect
  | .connect c =>
      (⟨s.rooms, mapSet s.conns c ⟨some ⟨"choice", none⟩, none, []⟩⟩,
       [Effect.emit c "prompt" promptChoice])
  | .response c data freshId =>
      let conn := (mapGet s.conns c).getD ⟨none, none, []⟩
      let r := handleResponse conn s.rooms c freshId (trimStr data)
      (⟨r.2.1, mapSet s.conns c r.1⟩, r.2.2)
  | .chat_message c data =>
      let conn := (mapGet s.conns c).getD ⟨none, none, []⟩
      (s, handleChatMessage conn s.rooms c data)
  | .quit c => applyQuit s c
  | .disconnect c => applyDisconnect s c

/-- The server before any socket has connected: empty registry, no conns. -/
def initialServer : ServerState := ⟨[], []⟩

/-- Run a sequence of inbound events, keeping only the state. -/
def runEvents (s : ServerState) (es : List SEvent) : ServerState :=
  es.foldl (fun s e => (applyServerEvent s e).1) s

/-- Step of the session state machine currently stored for socket `c`. -/
def connStep (s : ServerState) (c : String) : Option String :=
  ((mapGet s.conns c).bind Conn.state).map SessionState.step

/-- Connections a broadcast to `roomId` reaches: every live socket that has
`join`ed that socket.io room. -/
def broadcastRecipients (s : ServerState) (roomId : String) : List String :=
  (s.conns.filter (fun p => p.2.joined.contains roomId)).map Prod.fst

/-- Connections an effect reaches. -/
def effectRecipients (s : ServerState) : Effect → List String
  | .emit target _ _ => [target]
  | .broadcast roomId _ => broadcastRecipients s roomId

/-- The enumerated onboarding stages of the spec. -/
def stepsList : List String :=
  ["choice", "host_type", "host_passkey", "connect_room", "connect_passkey",
   "username", "chat"]

/-- One observable evolution step of the server: some inbound event was
fully handled. -/
def stepRel (s s' : ServerState) : Prop := ∃ e : SEvent, s' = (applyServerEvent s e).1

/-- Server states reachable from startup by handling inbound events. -/
def Reachable (s : ServerState) : Prop :=
  Relation.ReflTransGen stepRel initialServer s

/-! Basic lemmas about the association-list `Map` operations. -/

theorem mapGet_mapSet_self {α : Type} (m : List (String × α)) (k : String) (v : α) :
    mapGet (mapSet m k v) k = some v := by
  induction m with
  | nil => simp [mapSet, mapGet]
  | cons p rest ih =>
    by_cases h : p.1 = k
    · simp [mapSet, mapGet, h]
    · simp [mapSet, mapGet, h, ih]

theorem mapGet_mapSet_ne {α : Type} (m : List (String × α)) (k k' : String) (v : α)
    (h : k' ≠ k) : mapGet (mapSet m k v) k' = mapGet m k' := by
  have hk : k ≠ k' := fun he => h he.symm
  induction m with
  | nil => simp [mapSet, mapGet, hk]
  | cons p rest ih =>
    by_cases hp : p.1 = k
    · simp [mapSet, mapGet, hp, hk]
    · simp only [mapSet, if_neg hp, mapGet]
      split
      · rfl
      · exact ih

theorem mem_mapSet {α : Type} {m : List (String × α)} {k : String} {v : α} {p : String × α}
    (h : p ∈ mapSet m k v) : p = (k, v) ∨ p ∈ m := by
  induction m with
  | nil =>
    simp only [mapSet, List.mem_singleton] at h
    exact Or.inl h
  | cons q rest ih =>
    by_cases hq : q.1 = k
    · simp only [mapSet, if_pos hq, List.mem_cons] at h
      rcases h with h | h
      · exact Or.inl h
      · exact Or.inr (List.mem_cons_of_mem _ h)
    · simp only [mapSet, if_neg hq, List.mem_cons] at h
      rcases h with h | h
      · exact Or.inr (h ▸ List.mem_cons_self _ _)
      · rcases ih h with h' | h'
        · exact Or.inl h'
        · exact Or.inr (List.mem_cons_of_mem _ h')

theorem mem_mapDelete {α : Type} {m : List (String × α)} {k : String} {p : String × α}
    (h : p ∈ mapDelete m k) : p ∈ m := by
  induction m with
  | nil => simp [mapDelete] at h
  | cons q rest ih =>
    by_cases hq : q.1 = k
    · simp only [mapDelete, if_pos hq] at h
      exact List.mem_cons_of_mem _ h
    · simp only [mapDelete, if_neg hq, List.mem_cons] at h
      rcases h with h | h
      · exact h ▸ List.mem_cons_self _ _
      · exact List.mem_cons_of_mem _ (ih h)

theorem mapGet_mem {α : Type} {m : List (String × α)} {k : String} {v : α}
    (h : mapGet m k = some v) : (k, v) ∈ m := by
  induction m with
  | nil => simp [mapGet] at h
  | cons q rest ih =>
    by_cases hq : q.1 = k
    · simp only [mapGet, if_pos hq, Option.some.injEq] at h
      have : q = (k, v) := Prod.ext hq h
      exact this ▸ List.mem_cons_self _ _
    · simp only [mapGet, if_neg hq] at h
      exact List.mem_cons_of_mem _ (ih h)

theorem mapSet_keys_of_get_some {α : Type} {m : List (String × α)} {k : String} {w : α}
    (h : mapGet m k = some w) (v : α) :
    (mapSet m k v).map Prod.fst = m.map Prod.fst := by
  induction m with
  | nil => simp [mapGet] at h
  | cons q rest ih =>
    by_cases hq : q.1 = k
    · simp [mapSet, hq]
    · simp only [mapGet, if_neg hq] at h
      simp [mapSet, hq, ih h]

theorem mapGet_mapDelete_self_of_nodup {α : Type} {m : List (String × α)} {k : String}
    (h : (m.map Prod.fst).Nodup) : mapGet (mapDelete m k) k = none := by
  induction m with
  | nil => simp [mapDelete, mapGet]
  | cons q rest ih =>
    simp only [List.map_cons, List.nodup_cons] at h
    by_cases hq : q.1 = k
    · simp only [mapDelete, if_pos hq]
      subst hq
      cases hg : mapGet rest q.1 with
      | none => rfl
      | some w => exact absurd (List.mem_map_of_mem Prod.fst (mapGet_mem hg)) h.1
    · simp [mapDelete, mapGet, hq, ih h.2]

theorem mem_mapSet_of_nodup {α : Type} {m : List (String × α)} {k : String} {v : α}
    {p : String × α} (h : (m.map Prod.fst).Nodup) (hp : p ∈ mapSet m k v) :
    p = (k, v) ∨ (p ∈ m ∧ p.1 ≠ k) := by
  induction m with
  | nil =>
    simp only [mapSet, List.mem_singleton] at hp
    exact Or.inl hp
  | cons q rest ih =>
    simp only [List.map_cons, List.nodup_cons] at h
    by_cases hq : q.1 = k
    · simp only [mapSet, if_pos hq, List.mem_cons] at hp
      rcases hp with hp | hp
      · exact Or.inl hp
      · refine Or.inr ⟨List.mem_cons_of_mem _ hp, fun hpk => ?_⟩
        exact h.1 (hq ▸ hpk ▸ List.mem_map_of_mem Prod.fst hp)
    · simp only [mapSet, if_neg hq, List.mem_cons] at hp
      rcases hp with hp | hp
      · exact Or.inr ⟨hp ▸ List.mem_cons_self _ _, hp ▸ hq⟩
      · rcases ih h.2 hp with h' | h'
        · exact Or.inl h'
        · exact Or.inr ⟨List.mem_cons_of_mem _ h'.1, h'.2⟩

theorem findRoomForSocket_eq_none_iff (rooms : Registry) (c : String) :
    findRoomForSocket rooms c = none ↔ ∀ p ∈ rooms, mapGet p.2.clients c = none := by
  induction rooms with
  | nil => simp [findRoomForSocket]
  | cons q rest ih =>
    constructor
    · intro h p hp
      rw [show q = (q.1, q.2) from rfl] at h
      simp only [findRoomForSocket] at h
      split at h
      · exact absurd h (by simp)
      · rcases List.mem_cons.1 hp with rfl | hp'
        · rename_i hq
          cases hg : mapGet p.2.clients c with
          | none => rfl
          | some w => exact absurd (by simp [hg]) hq
        · exact (ih.1 h) p hp'
    · intro h
      rw [show q = (q.1, q.2) from rfl]
      simp only [findRoomForSocket]
      rw [if_neg, ih.2 (fun p hp => h p (List.mem_cons_of_mem _ hp))]
      simp [h q (List.mem_cons_self _ _)]

theorem mem_filter_joined {conns : List (String × Conn)} {c' rid : String} {cn : Conn}
    (h1 : mapGet conns c' = some cn) (h2 : rid ∈ cn.joined) :
    c' ∈ (conns.filter (fun p => p.2.joined.contains rid)).map Prod.fst := by
  induction conns with
  | nil => simp [mapGet] at h1
  | cons q rest ih =>
    by_cases hq : q.1 = c'
    · simp only [mapGet, if_pos hq, Option.some.injEq] at h1
      have hc : q.2.joined.contains rid = true := by
        rw [← h1] at h2
        exact List.elem_iff.mpr h2
      rw [List.filter_cons, if_pos hc]
      exact hq ▸ List.mem_map_of_mem Prod.fst (List.mem_cons_self _ _)
    · simp only [mapGet, if_neg hq] at h1
      rw [List.filter_cons]
      split
      · exact List.mem_cons_of_mem _ (ih h1)
      · exact ih h1

theorem mem_broadcastRecipients {s : ServerState} {c' rid : String} {cn : Conn}
    (h1 : mapGet s.conns c' = some cn) (h2 : rid ∈ cn.joined) :
    c' ∈ broadcastRecipients s rid :=
  mem_filter_joined h1 h2

theorem handleResponse_step_mem (conn : Conn) (rooms : Registry) (connId freshId data : String)
    (h : (conn.state.getD ⟨"choice", none⟩).step ∈ stepsList) :
    ∀ st : SessionState, (handleResponse conn rooms connId freshId data).1.state = some st →
      st.step ∈ stepsList := by
  intro st hst
  simp only [handleResponse] at hst
  repeat' split at hst
  all_goals
    simp only [Option.some.injEq] at hst
    subst hst
    first
      | exact h
      | simp [stepsList]

theorem applyQuit_conns (s : ServerState) (c : String) :
    (applyQuit s c).1.conns =
      mapSet s.conns c
        {((mapGet s.conns c).getD ⟨none, none, []⟩) with state := some ⟨"choice", none⟩} := by
  simp only [applyQuit]
  repeat' split
  all_goals rfl

theorem applyDisconnect_conns (s : ServerState) (c : String) :
    (applyDisconnect s c).1.conns = mapDelete s.conns c := by
  simp only [applyDisconnect]
  repeat' split
  all_goals rfl

/-- Invariant for C5: every stored session step is an enumerated stage. -/
def StepsInv (s : ServerState) : Prop :=
  ∀ p ∈ s.conns, ∀ st : SessionState, p.2.state = some st → st.step ∈ stepsList

theorem stepsInv_preserved {s s' : ServerState} (h : stepRel s s') (hinv : StepsInv s) :
    StepsInv s' := by
  obtain ⟨e, rfl⟩ := h
  cases e with
  | connect c =>
    intro p hp st hst
    simp only [applyServerEvent] at hp
    rcases mem_mapSet hp with rfl | hp'
    · simp only [Option.some.injEq] at hst
      subst hst
      simp [stepsList]
    · exact hinv p hp' st hst
  | response c data freshId =>
    intro p hp st hst
    simp only [applyServerEvent] at hp
    rcases mem_mapSet hp with rfl | hp'
    · refine handleResponse_step_mem _ _ _ _ _ ?_ st hst
      cases hg : mapGet s.conns c with
      | none => simp [hg, stepsList]
      | some cn =>
        cases hcs : cn.state with
        | none => simp [hg, hcs, stepsList]
        | some st0 =>
          simp only [hg, Option.getD_some, hcs]
          exact hinv (c, cn) (mapGet_mem hg) st0 hcs
    · exact hinv p hp' st hst
  | chat_message c data =>
    intro p hp st hst
    exact hinv p hp st hst
  | quit c =>
    intro p hp st hst
    simp only [applyServerEvent] at hp
    rw [applyQuit_conns] at hp
    rcases mem_mapSet hp with rfl | hp'
    · simp only [Option.some.injEq] at hst
      subst hst
      simp [stepsList]
    · exact hinv p hp' st hst
  | disconnect c =>
    intro p hp st hst
    simp only [applyServerEvent] at hp
    rw [applyDisconnect_conns] at hp
    exact hinv p (mem_mapDelete hp) st hst

theorem stepsInv_reachable {s : ServerState} (h : Reachable s) : StepsInv s := by
  induction h with
  | refl => intro p hp st hst; simp [initialServer] at hp
  | tail hab hbc ih => exact stepsInv_preserved hbc ih

/-- C5: at every point where handling of an inbound event has completed, the
step stored for any connected session is one of the seven enumerated
stages; no sequence of externally observable events can drive it outside
that set. -/
theorem C5_step_always_enumerated (s : ServerState) (hs : Reachable s) (c stp : String)
    (hstp : connStep s c = some stp) : stp ∈ stepsList := by
  unfold connStep at hstp
  cases hg : mapGet s.conns c with
  | none => rw [hg] at hstp; simp at hstp
  | some cn =>
    rw [hg, Option.some_bind] at hstp
    cases hcs : cn.state with
    | none => rw [hcs] at hstp; simp at hstp
    | some st =>
      rw [hcs] at hstp
      simp only [Option.map_some', Option.some.injEq] at hstp
      exact hstp ▸ stepsInv_reachable hs (c, cn) (mapGet_mem hg) st hcs

/-- Witness for C5 at a concrete reachable state: right after a connection
is accepted the stored step is "choice", an enumerated stage. -/
theorem C5_witness :
    connStep ((applyServerEvent initialServer (SEvent.connect "A")).1) "A" = some "choice" ∧
      "choice" ∈ stepsList :=
  ⟨by decide,
   C5_step_always_enumerated ((applyServerEvent initialServer (SEvent.connect "A")).1)
     (Relation.ReflTransGen.single ⟨SEvent.connect "A", rfl⟩) "A" "choice" (by decide)⟩

/-- The chat_message handler emits nothing when the guard
`socket.state && socket.state.step === "chat" && data` fails on the step. -/
theorem handleChatMessage_eq_nil (conn : Conn) (rooms : Registry) (connId data : String)
    (h : ∀ st : SessionState, conn.state = some st → st.step ≠ "chat") :
    handleChatMessage conn rooms connId data = [] := by
  unfold handleChatMessage
  cases hst : conn.state with
  | none => rfl
  | some st => exact if_neg (fun hc => h st hst hc.1)

/-- Dispatch-level version of the guard hypothesis, phrased on `connStep`. -/
theorem chatMessage_ignored_of_step_ne (s : ServerState) (c data : String)
    (h : connStep s c ≠ some "chat") :
    applyServerEvent s (SEvent.chat_message c data) = (s, []) := by
  simp only [applyServerEvent]
  rw [handleChatMessage_eq_nil]
  intro st hst hchat
  apply h
  unfold connStep
  cases hg : mapGet s.conns c with
  | none => rw [hg] at hst; simp at hst
  | some cn =>
    rw [hg] at hst
    simp only [Option.getD_some] at hst
    rw [Option.some_bind, hst]
    simp [hchat]

/-- C3 (amended): for every session whose step is not chat (including a
missing session state), an incoming chat_message event is silently ignored:
the server emits no event at all (not even a private error), changes no
state and broadcasts nothing. -/
theorem C3_chat_message_silently_ignored (s : ServerState) (c data : String)
    (h : connStep s c ≠ some "chat") :
    applyServerEvent s (SEvent.chat_message c data) = (s, []) :=
  chatMessage_ignored_of_step_ne s c data h

/-- C3 counterexample: a freshly connected session (step "choice") sends a
chat_message; contrary to the claim, no private error event is sent back —
the effect list of the event is empty and the state is unchanged. -/
theorem C3_counterexample :
    applyServerEvent (runEvents initialServer [SEvent.connect "A"])
        (SEvent.chat_message "A" "hi") =
      (runEvents initialServer [SEvent.connect "A"], []) := by decide

/-- Witness for C3: the amended theorem applied to a freshly connected
session sending "bye". -/
theorem C3_witness :
    connStep (runEvents initialServer [SEvent.connect "A"]) "A" ≠ some "chat" ∧
      applyServerEvent (runEvents initialServer [SEvent.connect "A"])
          (SEvent.chat_message "A" "bye") =
        (runEvents initialServer [SEvent.connect "A"], []) :=
  ⟨by decide, C3_chat_message_silently_ignored _ "A" "bye" (by decide)⟩

/-- C6: a chat_message submitted by a session whose step is not chat is
never delivered to any other connection: the handler produces no effect
reaching anyone but (at most) the sender — in fact no effect at all. -/
theorem C6_never_delivered_to_others (s : ServerState) (c data : String)
    (h : connStep s c ≠ some "chat") :
    ∀ e ∈ (applyServerEvent s (SEvent.chat_message c data)).2, ∀ c' : String,
      c' ≠ c → c' ∉ effectRecipients s e := by
  intro e he
  rw [chatMessage_ignored_of_step_ne s c data h] at he
  simp at he

/-- Witness for C6: the theorem applied to a freshly connected session. -/
theorem C6_witness :
    connStep (runEvents initialServer [SEvent.connect "A"]) "A" ≠ some "chat" ∧
      (∀ e ∈ (applyServerEvent (runEvents initialServer [SEvent.connect "A"])
            (SEvent.chat_message "A" "hi")).2, ∀ c' : String, c' ≠ "A" →
          c' ∉ effectRecipients (runEvents initialServer [SEvent.connect "A"]) e) :=
  ⟨by decide, C6_never_delivered_to_others _ "A" "hi" (by decide)⟩

/-- C1 counterexample: a fully reachable run in which rooms with zero
members exist in the registry after event handling has completed.  Socket A
hosts: createRoom inserts room "R" with an empty members map (already a
violation).  Socket B then joins "R" as "bob" and quits: the quit handler
removes the last member but never deletes the room, and the following
transport disconnect finds no membership, so the lookup of "R" still
succeeds — with an empty members map — instead of reporting the room
absent. -/
theorem C1_counterexample :
    mapGet (runEvents initialServer
      [SEvent.connect "A", SEvent.response "A" "1" "X", SEvent.response "A" "1" "R",
       SEvent.connect "B", SEvent.response "B" "2" "Y", SEvent.response "B" "R" "Y",
       SEvent.response "B" "bob" "Y", SEvent.quit "B", SEvent.disconnect "B"]).rooms "R"
      = some ⟨none, []⟩ := by decide

/-- C1 (amended): empty rooms can exist in the registry — `createRoom`
inserts a room with an empty members map, and an explicit quit that removes
the last member leaves the emptied room registered; only the
transport-disconnect path deletes a room that becomes empty, and that
deletion is immediate and synchronous, so a subsequent lookup reports the
room absent. -/
theorem C1_room_lifecycle :
    (∀ (rooms : Registry) (connId freshId : String) (pk : Option String),
        mapGet (createRoom rooms connId freshId pk).1 freshId = some ⟨pk, []⟩) ∧
    (∀ (s : ServerState) (c rid u : String) (room : Room),
        findRoomForSocket s.rooms c = some rid →
        mapGet s.rooms rid = some room →
        mapGet room.clients c = some u → u ≠ "" →
        mapGet ((applyServerEvent s (SEvent.quit c)).1.rooms) rid =
          some ⟨room.passkey, mapDelete room.clients c⟩) ∧
    (∀ (s : ServerState) (c rid u : String) (room : Room),
        (s.rooms.map Prod.fst).Nodup →
        findRoomForSocket s.rooms c = some rid →
        mapGet s.rooms rid = some room →
        mapGet room.clients c = some u → u ≠ "" →
        mapDelete room.clients c = [] →
        mapGet ((applyServerEvent s (SEvent.disconnect c)).1.rooms) rid = none) := by
  refine ⟨?_, ?_, ?_⟩
  · intro rooms connId freshId pk
    exact mapGet_mapSet_self rooms freshId ⟨pk, []⟩
  · intro s c rid u room h1 h2 h3 h4
    simp only [applyServerEvent, applyQuit, h1, h2, h3, if_pos h4]
    exact mapGet_mapSet_self _ _ _
  · intro s c rid u room hnd h1 h2 h3 h4 h5
    simp only [applyServerEvent, applyDisconnect, h1, h2, h3, if_pos h4, h5]
    simp only [List.isEmpty_nil, if_pos rfl]
    apply mapGet_mapDelete_self_of_nodup
    rw [mapSet_keys_of_get_some h2]
    exact hnd

/-- Witness for C1 (amended) at concrete inputs: creating room "R" leaves it
registered with no members; "bob" quitting as last member of "R" leaves the
empty room registered; "bob" disconnecting as last member deletes "R". -/
theorem C1_witness :
    mapGet (createRoom [] "A" "R" none).1 "R" = some ⟨none, []⟩ ∧
    mapGet ((applyServerEvent
        ⟨[("R", ⟨none, [("B", "bob")]⟩)],
         [("B", ⟨some ⟨"chat", some "R"⟩, none, ["R"]⟩)]⟩
        (SEvent.quit "B")).1.rooms) "R" = some ⟨none, []⟩ ∧
    mapGet ((applyServerEvent
        ⟨[("R", ⟨none, [("B", "bob")]⟩)],
         [("B", ⟨some ⟨"chat", some "R"⟩, none, ["R"]⟩)]⟩
        (SEvent.disconnect "B")).1.rooms) "R" = none :=
  ⟨C1_room_lifecycle.1 [] "A" "R" none,
   C1_room_lifecycle.2.1 _ "B" "R" "bob" ⟨none, [("B", "bob")]⟩
     (by decide) (by decide) (by decide) (by decide),
   C1_room_lifecycle.2.2 _ "B" "R" "bob" ⟨none, [("B", "bob")]⟩
     (by decide) (by decide) (by decide) (by decide) (by decide) (by decide)⟩

/-- C10: an explicit quit by a member broadcasts exactly one departure
notice to its room; the transport disconnect that follows removes no
membership (the registry is unchanged) and emits nothing, because the quit
already removed the connection from the room members. -/
theorem C10_quit_single_departure_notice (s : ServerState) (c rid u : String) (room : Room)
    (h1 : findRoomForSocket s.rooms c = some rid)
    (h2 : mapGet s.rooms rid = some room)
    (h3 : mapGet room.clients c = some u)
    (h4 : u ≠ "")
    (h5 : ∀ p ∈ s.rooms, p.1 ≠ rid → mapGet p.2.clients c = none)
    (h6 : (room.clients.map Prod.fst).Nodup)
    (h7 : (s.rooms.map Prod.fst).Nodup) :
    (applyServerEvent s (SEvent.quit c)).2 =
      [Effect.broadcast rid ("*** " ++ u ++ " left the chat ***")] ∧
    (applyServerEvent (applyServerEvent s (SEvent.quit c)).1 (SEvent.disconnect c)).2 = [] ∧
    (applyServerEvent (applyServerEvent s (SEvent.quit c)).1 (SEvent.disconnect c)).1.rooms =
      (applyServerEvent s (SEvent.quit c)).1.rooms := by
  have hq : applyServerEvent s (SEvent.quit c) =
      (⟨mapSet s.rooms rid {room with clients := mapDelete room.clients c},
        mapSet s.conns c
          {((mapGet s.conns c).getD ⟨none, none, []⟩) with state := some ⟨"choice", none⟩}⟩,
       [Effect.broadcast rid ("*** " ++ u ++ " left the chat ***")]) := by
    simp only [applyServerEvent, applyQuit, h1, h2, h3, if_pos h4]
  have hnone : findRoomForSocket
      (mapSet s.rooms rid {room with clients := mapDelete room.clients c}) c = none := by
    rw [findRoomForSocket_eq_none_iff]
    intro p hp
    rcases mem_mapSet_of_nodup h7 hp with rfl | ⟨hpm, hpk⟩
    · exact mapGet_mapDelete_self_of_nodup h6
    · exact h5 p hpm hpk
  refine ⟨by rw [hq], ?_, ?_⟩
  · rw [hq]
    simp only [applyServerEvent, applyDisconnect, hnone]
  · rw [hq]
    simp only [applyServerEvent, applyDisconnect, hnone]

/-- Witness for C10: "bob" quits from room "R" (whose other member is
"carol"): one departure notice, and the following disconnect is a no-op on
the registry with no second notice. -/
theorem C10_witness :
    (applyServerEvent
        ⟨[("R", ⟨none, [("B", "bob"), ("C", "carol")]⟩)],
         [("B", ⟨some ⟨"chat", some "R"⟩, none, ["R"]⟩),
          ("C", ⟨some ⟨"chat", some "R"⟩, none, ["R"]⟩)]⟩
        (SEvent.quit "B")).2 =
      [Effect.broadcast "R" "*** bob left the chat ***"] ∧
    (applyServerEvent (applyServerEvent
        ⟨[("R", ⟨none, [("B", "bob"), ("C", "carol")]⟩)],
         [("B", ⟨some ⟨"chat", some "R"⟩, none, ["R"]⟩),
          ("C", ⟨some ⟨"chat", some "R"⟩, none, ["R"]⟩)]⟩
        (SEvent.quit "B")).1 (SEvent.disconnect "B")).2 = [] ∧
    (applyServerEvent (applyServerEvent
        ⟨[("R", ⟨none, [("B", "bob"), ("C", "carol")]⟩)],
         [("B", ⟨some ⟨"chat", some "R"⟩, none, ["R"]⟩),
          ("C", ⟨some ⟨"chat", some "R"⟩, none, ["R"]⟩)]⟩
        (SEvent.quit "B")).1 (SEvent.disconnect "B")).1.rooms =
      (applyServerEvent
        ⟨[("R", ⟨none, [("B", "bob"), ("C", "carol")]⟩)],
         [("B", ⟨some ⟨"chat", some "R"⟩, none, ["R"]⟩),
          ("C", ⟨some ⟨"chat", some "R"⟩, none, ["R"]⟩)]⟩
        (SEvent.quit "B")).1.rooms :=
  C10_quit_single_departure_notice _ "B" "R" "bob" ⟨none, [("B", "bob"), ("C", "carol")]⟩
    (by decide) (by decide) (by decide) (by decide) (by decide) (by decide) (by decide)

/-- C7: a non-empty chat_message from a session in the chat step that is a
member of an existing room is broadcast as a message with the exact text
"[username] text", and the broadcast reaches every connection that is
currently a member of that room, including the sender. -/
theorem C7_chat_relay_broadcast (s : ServerState) (c data rid u : String)
    (conn : Conn) (room : Room)
    (hc : mapGet s.conns c = some conn)
    (hst : conn.state = some ⟨"chat", some rid⟩)
    (hdata : data ≠ "")
    (hroom : mapGet s.rooms rid = some room)
    (hu : mapGet room.clients c = some u)
    (hune : u ≠ "") (hrne : rid ≠ "")
    (hmem : ∀ p ∈ room.clients, rid ∈ ((mapGet s.conns p.1).map Conn.joined).getD []) :
    applyServerEvent s (SEvent.chat_message c data) =
      (s, [Effect.broadcast rid ("[" ++ u ++ "] " ++ data)]) ∧
    (∀ c' u', mapGet room.clients c' = some u' → c' ∈ broadcastRecipients s rid) ∧
    c ∈ broadcastRecipients s rid := by
  have hrec : ∀ c' u', mapGet room.clients c' = some u' → c' ∈ broadcastRecipients s rid := by
    intro c' u' hg
    have hm := hmem (c', u') (mapGet_mem hg)
    cases hcg : mapGet s.conns c' with
    | none => rw [hcg] at hm; simp at hm
    | some cn =>
      rw [hcg] at hm
      simp only [Option.map_some', Option.getD_some] at hm
      exact mem_broadcastRecipients hcg hm
  refine ⟨?_, hrec, hrec c u hu⟩
  simp [applyServerEvent, hc, handleChatMessage, hst, olookup, hroom, hu, hdata, hune, hrne]

/-- Witness for C7: "alice" relays "hi" in room "R" with members "alice"
and "carol"; both receive the broadcast, sender included. -/
theorem C7_witness :
    applyServerEvent
        ⟨[("R", ⟨none, [("A", "alice"), ("C", "carol")]⟩)],
         [("A", ⟨some ⟨"chat", some "R"⟩, none, ["R"]⟩),
          ("C", ⟨some ⟨"chat", some "R"⟩, none, ["R"]⟩)]⟩
        (SEvent.chat_message "A" "hi") =
      (⟨[("R", ⟨none, [("A", "alice"), ("C", "carol")]⟩)],
        [("A", ⟨some ⟨"chat", some "R"⟩, none, ["R"]⟩),
         ("C", ⟨some ⟨"chat", some "R"⟩, none, ["R"]⟩)]⟩,
       [Effect.broadcast "R" "[alice] hi"]) ∧
    (∀ c' u', mapGet ([("A", "alice"), ("C", "carol")] : List (String × String)) c' = some u' →
        c' ∈ broadcastRecipients
          ⟨[("R", ⟨none, [("A", "alice"), ("C", "carol")]⟩)],
           [("A", ⟨some ⟨"chat", some "R"⟩, none, ["R"]⟩),
            ("C", ⟨some ⟨"chat", some "R"⟩, none, ["R"]⟩)]⟩ "R") ∧
    "A" ∈ broadcastRecipients
        ⟨[("R", ⟨none, [("A", "alice"), ("C", "carol")]⟩)],
         [("A", ⟨some ⟨"chat", some "R"⟩, none, ["R"]⟩),
          ("C", ⟨some ⟨"chat", some "R"⟩, none, ["R"]⟩)]⟩ "R" :=
  C7_chat_relay_broadcast _ "A" "hi" "R" "alice"
    ⟨some ⟨"chat", some "R"⟩, none, ["R"]⟩ ⟨none, [("A", "alice"), ("C", "carol")]⟩
    (by decide) (by decide) (by decide) (by decide) (by decide) (by decide) (by decide)
    (by decide)

/-- Evaluation of `handleResponse` in the connect_passkey branch. -/
theorem handleResponse_connect_passkey (conn : Conn) (rooms : Registry)
    (connId freshId data : String) (st : SessionState)
    (hst : conn.state = some st) (hstep : st.step = "connect_passkey") :
    handleResponse conn rooms connId freshId data =
      (match olookup rooms st.roomId with
       | some room =>
         if room.passkey = some data then
           ({conn with state := some {st with step := "username"}}, rooms,
             [Effect.emit connId "prompt" promptUsername])
         else
           ({conn with state := some st}, rooms,
             [Effect.emit connId "error" "Invalid passkey.",
              Effect.emit connId "prompt" promptPasskey])
       | none =>
         ({conn with state := some st}, rooms,
           [Effect.emit connId "error" "Invalid passkey.",
            Effect.emit connId "prompt" promptPasskey])) := by
  simp only [handleResponse, hst, Option.getD_some, hstep, String.reduceEq, reduceIte]

/-- C4: at step connect_passkey the session advances to username iff the
submitted (trimmed) text is exactly the passkey of the room recorded in the
session; on any mismatch, or when that room no longer exists, the handler
emits "Invalid passkey." plus the passkey prompt and the session remains at
connect_passkey. -/
theorem C4_passkey_gate (s : ServerState) (c data freshId : String) (conn : Conn)
    (st : SessionState)
    (hc : mapGet s.conns c = some conn) (hst : conn.state = some st)
    (hstep : st.step = "connect_passkey") :
    (connStep (applyServerEvent s (SEvent.response c data freshId)).1 c = some "username" ↔
      (∃ room : Room, olookup s.rooms st.roomId = some room ∧
        room.passkey = some (trimStr data))) ∧
    ((¬ ∃ room : Room, olookup s.rooms st.roomId = some room ∧
        room.passkey = some (trimStr data)) →
      (applyServerEvent s (SEvent.response c data freshId)).2 =
        [Effect.emit c "error" "Invalid passkey.", Effect.emit c "prompt" promptPasskey] ∧
      connStep (applyServerEvent s (SEvent.response c data freshId)).1 c =
        some "connect_passkey") := by
  have hr := handleResponse_connect_passkey conn s.rooms c freshId (trimStr data) st hst hstep
  cases holo : olookup s.rooms st.roomId with
  | none =>
    simp only [holo] at hr
    have happ : applyServerEvent s (SEvent.response c data freshId) =
        (⟨s.rooms, mapSet s.conns c {conn with state := some st}⟩,
         [Effect.emit c "error" "Invalid passkey.", Effect.emit c "prompt" promptPasskey]) := by
      simp only [applyServerEvent, hc, Option.getD_some, hr]
    rw [happ]
    have hcs : connStep
        (⟨s.rooms, mapSet s.conns c {conn with state := some st}⟩ : ServerState) c =
        some "connect_passkey" := by
      simp only [connStep, mapGet_mapSet_self, Option.some_bind, Option.map_some', hstep]
    refine ⟨?_, fun _ => ⟨rfl, hcs⟩⟩
    rw [hcs]
    constructor
    · intro hcontra
      exact absurd (Option.some.inj hcontra) (by decide)
    · rintro ⟨room, hcon, _⟩
      exact Option.noConfusion hcon
  | some room =>
    simp only [holo] at hr
    by_cases hpk : room.passkey = some (trimStr data)
    · rw [if_pos hpk] at hr
      have happ : applyServerEvent s (SEvent.response c data freshId) =
          (⟨s.rooms,
            mapSet s.conns c {conn with state := some {st with step := "username"}}⟩,
           [Effect.emit c "prompt" promptUsername]) := by
        simp only [applyServerEvent, hc, Option.getD_some, hr]
      rw [happ]
      have hcs : connStep
          (⟨s.rooms,
            mapSet s.conns c {conn with state := some {st with step := "username"}}⟩ :
              ServerState) c = some "username" := by
        simp only [connStep, mapGet_mapSet_self, Option.some_bind, Option.map_some']
      refine ⟨?_, fun hnex => absurd ⟨room, rfl, hpk⟩ hnex⟩
      rw [hcs]
      exact ⟨fun _ => ⟨room, rfl, hpk⟩, fun _ => rfl⟩
    · rw [if_neg hpk] at hr
      have happ : applyServerEvent s (SEvent.response c data freshId) =
          (⟨s.rooms, mapSet s.conns c {conn with state := some st}⟩,
           [Effect.emit c "error" "Invalid passkey.", Effect.emit c "prompt" promptPasskey]) := by
        simp only [applyServerEvent, hc, Option.getD_some, hr]
      rw [happ]
      have hcs : connStep
          (⟨s.rooms, mapSet s.conns c {conn with state := some st}⟩ : ServerState) c =
          some "connect_passkey" := by
        simp only [connStep, mapGet_mapSet_self, Option.some_bind, Option.map_some', hstep]
      refine ⟨?_, fun _ => ⟨rfl, hcs⟩⟩
      rw [hcs]
      constructor
      · intro hcontra
        exact absurd (Option.some.inj hcontra) (by decide)
      · rintro ⟨room', hcon, hpk'⟩
        exact absurd ((Option.some.inj hcon) ▸ hpk') hpk

/-- Witness for C4: room "R" has passkey "secret"; the connected session at
connect_passkey submitting "secret" advances to username. -/
theorem C4_witness :
    connStep ((applyServerEvent
        ⟨[("R", ⟨some "secret", []⟩)],
         [("A", ⟨some ⟨"connect_passkey", some "R"⟩, none, []⟩)]⟩
        (SEvent.response "A" "secret" "F")).1) "A" = some "username" :=
  (C4_passkey_gate
      ⟨[("R", ⟨some "secret", []⟩)],
       [("A", ⟨some ⟨"connect_passkey", some "R"⟩, none, []⟩)]⟩
      "A" "secret" "F" ⟨some ⟨"connect_passkey", some "R"⟩, none, []⟩
      ⟨"connect_passkey", some "R"⟩ (by decide) (by decide) (by decide)).1.mpr
    ⟨⟨some "secret", []⟩, by decide, by decide⟩

/-- C2 evaluation at the failing input: from a fresh connection, submitting
"1" (choice to host_type) and then "1" at host_type creates room "R" (with
no members) and prompts for a username, but the session is left at step
host_type — not at username with the room committed — because
`socket.state = res.state` stores `undefined` (createRoom returns
`{ step, roomId }`, which has no `.state` field) and the trailing
`socket.state = state` restores the old state object. -/
theorem C2_host_commit_lost :
    (applyServerEvent
        (runEvents initialServer [SEvent.connect "A", SEvent.response "A" "1" "X"])
        (SEvent.response "A" "1" "R")).2 =
      [Effect.emit "A" "message" (createRoomMessage "R" none),
       Effect.emit "A" "prompt" promptUsername] ∧
    connStep (applyServerEvent
        (runEvents initialServer [SEvent.connect "A", SEvent.response "A" "1" "X"])
        (SEvent.response "A" "1" "R")).1 "A" = some "host_type" ∧
    mapGet (applyServerEvent
        (runEvents initialServer [SEvent.connect "A", SEvent.response "A" "1" "X"])
        (SEvent.response "A" "1" "R")).1.rooms "R" = some ⟨none, []⟩ :=
  ⟨by decide, by decide, by decide⟩

/-- C8 evaluation at the failing inputs.  First conjunct: on a corrupted
(non-enumerated) state the invalid-state branch emits the error and the
initial prompt but the stored step stays "bogus" — the reset of
`socket.state` to the choice step inside the branch is dead, overwritten by
the handler's final `socket.state = state`.  Remaining
conjuncts: the same branch is reachable — a session in chat that sends a
response event gets the invalid-state error and the choice prompt yet keeps
step "chat" instead of being reset to choice. -/
theorem C8_invalid_state_reset_dead :
    handleResponse ⟨some ⟨"bogus", none⟩, none, []⟩ [] "A" "X" "hi" =
      (⟨some ⟨"bogus", none⟩, none, []⟩, [],
        [Effect.emit "A" "error" "Invalid state. Please reconnect.",
         Effect.emit "A" "prompt" promptChoice]) ∧
    (applyServerEvent (runEvents initialServer
        [SEvent.connect "B", SEvent.response "B" "1" "X", SEvent.response "B" "1" "R",
         SEvent.connect "A", SEvent.response "A" "2" "Y", SEvent.response "A" "R" "Y",
         SEvent.response "A" "alice" "Y"])
        (SEvent.response "A" "hello" "Z")).2 =
      [Effect.emit "A" "error" "Invalid state. Please reconnect.",
       Effect.emit "A" "prompt" promptChoice] ∧
    connStep (applyServerEvent (runEvents initialServer
        [SEvent.connect "B", SEvent.response "B" "1" "X", SEvent.response "B" "1" "R",
         SEvent.connect "A", SEvent.response "A" "2" "Y", SEvent.response "A" "R" "Y",
         SEvent.response "A" "alice" "Y"])
        (SEvent.response "A" "hello" "Z")).1 "A" = some "chat" :=
  ⟨by decide, by decide, by decide⟩

/-- Evaluation of `handleResponse` in the username branch when the recorded
room no longer exists: joinRoom emits its error and the initial prompt (its
reset of `socket.state` to choice is dead), and the handler still commits
step chat with the stale roomId plus the chat hint message. -/
theorem handleResponse_username_missing_room (conn : Conn) (rooms : Registry)
    (connId freshId data rid : String)
    (hst : conn.state = some ⟨"username", some rid⟩)
    (hroom : mapGet rooms rid = none) (hdata : data ≠ "") :
    handleResponse conn rooms connId freshId data =
      ({conn with state := some ⟨"chat", some rid⟩}, rooms,
        [Effect.emit connId "error" "Room no longer exists.",
         Effect.emit connId "prompt" promptChoice,
         Effect.emit connId "message" "type and hit enter to send a message"]) := by
  simp [handleResponse, hst, hdata, joinRoom, olookup, hroom]

/-- C9: at step username with a recorded roomId no longer in the registry,
a non-empty username gets the private error "Room no longer exists." (plus
the prompt emitted inside joinRoom and the chat hint), yet the session ends
at step chat with the stale roomId — joinRoom's reset to choice is
overwritten by the handler's final state write; every subsequent non-empty
chat_message from that session then yields only the private error
"Not in a valid room or username not set." and nothing is broadcast. -/
theorem C9_stale_room_username (s : ServerState) (c data freshId rid : String) (conn : Conn)
    (hc : mapGet s.conns c = some conn)
    (hst : conn.state = some ⟨"username", some rid⟩)
    (hroom : mapGet s.rooms rid = none)
    (hdata : trimStr data ≠ "") :
    applyServerEvent s (SEvent.response c data freshId) =
      (⟨s.rooms, mapSet s.conns c {conn with state := some ⟨"chat", some rid⟩}⟩,
       [Effect.emit c "error" "Room no longer exists.",
        Effect.emit c "prompt" promptChoice,
        Effect.emit c "message" "type and hit enter to send a message"]) ∧
    (∀ t : String, t ≠ "" →
      applyServerEvent
          (⟨s.rooms,
            mapSet s.conns c {conn with state := some ⟨"chat", some rid⟩}⟩ : ServerState)
          (SEvent.chat_message c t) =
        (⟨s.rooms, mapSet s.conns c {conn with state := some ⟨"chat", some rid⟩}⟩,
         [Effect.emit c "error" "Not in a valid room or username not set."])) := by
  constructor
  · simp only [applyServerEvent, hc, Option.getD_some,
      handleResponse_username_missing_room conn s.rooms c freshId (trimStr data) rid hst
        hroom hdata]
  · intro t ht
    simp [applyServerEvent, mapGet_mapSet_self, handleChatMessage, olookup, hroom, ht]

/-- Witness for C9: session "A" at username recorded stale room "R" (absent
from the registry); submitting "alice" and then chatting "hi". -/
theorem C9_witness :
    applyServerEvent ⟨[], [("A", ⟨some ⟨"username", some "R"⟩, none, []⟩)]⟩
        (SEvent.response "A" "alice" "F") =
      (⟨[], [("A", ⟨some ⟨"chat", some "R"⟩, none, []⟩)]⟩,
       [Effect.emit "A" "error" "Room no longer exists.",
        Effect.emit "A" "prompt" promptChoice,
        Effect.emit "A" "message" "type and hit enter to send a message"]) ∧
    applyServerEvent ⟨[], [("A", ⟨some ⟨"chat", some "R"⟩, none, []⟩)]⟩
        (SEvent.chat_message "A" "hi") =
      (⟨[], [("A", ⟨some ⟨"chat", some "R"⟩, none, []⟩)]⟩,
       [Effect.emit "A" "error" "Not in a valid room or username not set."]) :=
  ⟨(C9_stale_room_username ⟨[], [("A", ⟨some ⟨"username", some "R"⟩, none, []⟩)]⟩
      "A" "alice" "F" "R" ⟨some ⟨"username", some "R"⟩, none, []⟩
      (by decide) (by decide) (by decide) (by decide)).1,
   (C9_stale_room_username ⟨[], [("A", ⟨some ⟨"username", some "R"⟩, none, []⟩)]⟩
      "A" "alice" "F" "R" ⟨some ⟨"username", some "R"⟩, none, []⟩
      (by decide) (by decide) (by decide) (by decide)).2 "hi" (by decide)⟩

end LanChat
